import Mathlib

/-!
# Verification of the employee-management frontend and its specified core

Shallow embedding of the React frontend of the employee-management
application (`frontend/src/...`) together with spec-level models of the
backend core components (Field Projector, Admission Controller) that the
repository snapshot does not contain in source form.

Conventions:
* JavaScript objects holding string values are embedded as association
  lists `List (String × String)` in insertion order.
* JavaScript `null` for an optional string is `Option.none`; JavaScript
  truthiness of a string-or-null value is `none ↦ false`, `some "" ↦ false`,
  otherwise `true`.
* Timestamps and counters are `Nat`.
-/

/-! ## StatusPill (`components/StatusPill.jsx`, also inlined in `App.jsx`) -/

/-- The `STATUS_COLORS` object: status name to hex color. -/
def STATUS_COLORS : List (String × String) :=
  [("Active", "#24b47e"), ("Not started", "#4c6fff"), ("Terminated", "#ff4d4f")]

/-- The color computed by `StatusPill`: the configured color for the
status, with `#24b47e` as the fallback of the JS or-else expression. -/
def statusPillColor (status : String) : String :=
  (STATUS_COLORS.lookup status).getD "#24b47e"

/-! ## Employee service (`services/employeeService.js`) -/

/-- The constant `ORG_ID`, the string `org-1`. -/
def ORG_ID : String := "org-1"

/-- The constant `API_BASE_URL`. -/
def API_BASE_URL : String := "http://localhost:8000"

/-- The `getHeaders` function: headers object carrying the organization
header. -/
def getHeaders : List (String × String) := [("X-Org-Id", ORG_ID)]

/-- An outgoing HTTP request as the service builds it: URL, method and
headers.  Bodies are irrelevant to the properties proved here. -/
structure Request where
  url : String
  method : String
  headers : List (String × String)

/-- Semantics of `URLSearchParams.set`: replace the value of an existing
key, otherwise append the pair at the end. -/
def urlParamsSet (l : List (String × String)) (k v : String) :
    List (String × String) :=
  if (l.lookup k).isSome then
    l.map (fun kv => if kv.1 = k then (k, v) else kv)
  else l ++ [(k, v)]

/-- The `Object.entries(params).forEach` loop in `searchEmployees`: each
pair whose value is non-empty (the JS code also skips `null`/`undefined`,
which cannot occur for string-valued entries) is `set` into the
`URLSearchParams` accumulator. -/
def searchParamsFold (acc : List (String × String)) :
    List (String × String) → List (String × String)
  | [] => acc
  | kv :: rest =>
      if kv.2 ≠ "" then searchParamsFold (urlParamsSet acc kv.1 kv.2) rest
      else searchParamsFold acc rest

/-- The query-parameter list `searchEmployees` actually serializes. -/
def searchParamsOf (params : List (String × String)) :
    List (String × String) :=
  searchParamsFold [] params

/-- The request of `searchEmployees`: GET on the employees route with
`getHeaders()`. -/
def searchEmployeesRequest (queryString : String) : Request :=
  { url := API_BASE_URL ++ "/employees?" ++ queryString
    method := "GET"
    headers := getHeaders }

/-- The request of `getFilterOptions`: GET on the filters route with
`getHeaders()`. -/
def getFilterOptionsRequest : Request :=
  { url := API_BASE_URL ++ "/filters"
    method := "GET"
    headers := getHeaders }

/-- The request of `createEmployee`: POST on the employees route with
`getHeaders()` spread first and the content-type header added. -/
def createEmployeeRequest : Request :=
  { url := API_BASE_URL ++ "/employees"
    method := "POST"
    headers := getHeaders ++ [("Content-Type", "application/json")] }

/-- The request of `importEmployees`: POST on the import route with
`getHeaders()`. -/
def importEmployeesRequest : Request :=
  { url := API_BASE_URL ++ "/employees/import"
    method := "POST"
    headers := getHeaders }

/-- The request of `exportEmployees`: GET on the export route with
`getHeaders()`. -/
def exportEmployeesRequest : Request :=
  { url := API_BASE_URL ++ "/employees/export"
    method := "GET"
    headers := getHeaders }

/-! ## Pagination (`components/Pagination.jsx`, also inlined in `App.jsx`) -/

/-- Computes `Math.max(1, Math.ceil(total / pageSize))`.  For
`pageSize > 0` the
JavaScript ceiling of the real quotient equals the rounding-up natural
division `(total + pageSize - 1) / pageSize`. -/
def totalPagesJs (total pageSize : Nat) : Nat :=
  max 1 ((total + pageSize - 1) / pageSize)

/-- The `pages` array: the loop `for (let i = 1; i <= totalPages; i += 1)`
collects `1, …, totalPages`. -/
def pagesList (total pageSize : Nat) : List Nat :=
  List.range' 1 (totalPagesJs total pageSize)

/-- Disabled condition of the Prev button: `page <= 1`. -/
def prevDisabled (page : Nat) : Bool :=
  page ≤ 1

/-- Disabled condition of the Next button: `page >= totalPages`. -/
def nextDisabled (page total pageSize : Nat) : Bool :=
  totalPagesJs total pageSize ≤ page

/-- The page-size `<select>` offers exactly `[10, 25, 50]`. -/
def pageSizeOptions : List Nat := [10, 25, 50]

/-! ## FilterPanel status toggle (`components/FilterPanel.jsx`) -/

/-- Building a JavaScript `Set` from a list: keep the first occurrence of
each element, in insertion order.  `seen` accumulates elements already
emitted. -/
def dedupFirstAux (seen : List String) : List String → List String
  | [] => []
  | x :: xs =>
      if x ∈ seen then dedupFirstAux seen xs
      else x :: dedupFirstAux (x :: seen) xs

/-- Evaluates `Array.from` of a `Set` built from the list. -/
def dedupFirst (l : List String) : List String :=
  dedupFirstAux [] l

/-- The `handleStatusToggle` handler: build a `Set` from the current
statuses,
delete `status` if present else add it, and convert back to an array. -/
def handleStatusToggle (statuses : List String) (status : String) :
    List String :=
  let current := dedupFirst statuses
  if status ∈ current then current.erase status else current ++ [status]

/-! ## EmployeeListPage state (`pages/EmployeeListPage.jsx`) -/

/-- The `filters` state object.  `location`/`company`/`department`/
`position` are string-or-null (`handleSelectChange` maps the empty select
value to `null`); `statuses` is an array of status strings. -/
structure Filters where
  statuses : List String
  location : Option String
  company : Option String
  department : Option String
  position : Option String

/-- The page state relevant to the employee query. -/
structure ListPageState where
  page : Nat
  pageSize : Nat
  search : String
  includeTerminated : Bool
  filters : Filters
  reloadToken : Nat

/-- Initial `useState` filters: statuses `Active` and `Not started`, all
dropdown dimensions `null`. -/
def initialFilters : Filters :=
  { statuses := ["Active", "Not started"]
    location := none
    company := none
    department := none
    position := none }

/-- Initial `useState` values: page 1, pageSize 50, empty search, include
terminated unchecked, reload token 0. -/
def initialListPageState : ListPageState :=
  { page := 1
    pageSize := 50
    search := ""
    includeTerminated := false
    filters := initialFilters
    reloadToken := 0 }

/-- One conditional entry of the `queryParams` object guarded by JS
truthiness of a string-or-null value (`null` and `""` are falsy). -/
def truthyParam (key : String) (value : Option String) :
    List (String × String) :=
  match value with
  | none => []
  | some v => if v = "" then [] else [(key, v)]

/-- Evaluates `filters.statuses.join` with a comma separator. -/
def joinComma (l : List String) : String :=
  String.intercalate "," l

/-- The `queryParams` object of `EmployeeListPage`, in the insertion order
of the source: the three unconditional entries, then each conditionally
set entry. -/
def buildQueryParams (st : ListPageState) : List (String × String) :=
  [("page", toString st.page), ("page_size", toString st.pageSize),
   ("_rt", toString st.reloadToken)]
  ++ (if st.search = "" then [] else [("search", st.search)])
  ++ (if 0 < st.filters.statuses.length then
        [("statuses", joinComma st.filters.statuses)] else [])
  ++ truthyParam "locations" st.filters.location
  ++ truthyParam "companies" st.filters.company
  ++ truthyParam "departments" st.filters.department
  ++ truthyParam "positions" st.filters.position
  ++ (if st.includeTerminated then [("include_terminated", "true")] else [])

/-- The query parameters actually serialized into the `/employees` URL:
the `queryParams` object of the page passed through the
`URLSearchParams` loop. -/
def employeesQueryParams (st : ListPageState) : List (String × String) :=
  searchParamsOf (buildQueryParams st)

/-! ## Pagination interaction state machine

The `page`/`pageSize` state of `EmployeeListPage` changes only through
`handlePageChange`, invoked by the `Pagination` component: the Prev
button (enabled only when `page > 1`), a numbered page button (one of
`pagesList`), the Next button (enabled only when `page < totalPages`),
and the page-size select (which resets the page to 1 and offers only
`pageSizeOptions`). -/

/-- One user interaction with the `Pagination` component, given the
current `total`; relates the `(page, pageSize)` state before and after. -/
inductive PageStep (total : Nat) : Nat × Nat → Nat × Nat → Prop where
  | selectSize (st : Nat × Nat) (size : Nat) (h : size ∈ pageSizeOptions) :
      PageStep total st (1, size)
  | clickPrev (st : Nat × Nat) (h : prevDisabled st.1 = false) :
      PageStep total st (st.1 - 1, st.2)
  | clickPage (st : Nat × Nat) (p : Nat) (h : p ∈ pagesList total st.2) :
      PageStep total st (p, st.2)
  | clickNext (st : Nat × Nat) (h : nextDisabled st.1 total st.2 = false) :
      PageStep total st (st.1 + 1, st.2)

/-- The `(page, pageSize)` states reachable from the initial render
through
`Pagination` interactions (the server-reported `total` may differ at each
step). -/
inductive PageReachable : Nat × Nat → Prop where
  | init : PageReachable (initialListPageState.page, initialListPageState.pageSize)
  | step (total : Nat) (st st2 : Nat × Nat) :
      PageReachable st → PageStep total st st2 → PageReachable st2

/-! ## AddEmployeeModal form (`components/AddEmployeeModal.jsx`) -/

/-- The `form` state object of the add-employee modal. -/
structure AddForm where
  first_name : String
  last_name : String
  department : String
  position : String
  location : String
  status : String

/-- Initial `useState` form: all text fields empty, status `Active`. -/
def initialForm : AddForm :=
  { first_name := ""
    last_name := ""
    department := ""
    position := ""
    location := ""
    status := "Active" }

/-- The options offered by the STATUS `<select>`. -/
def statusOptions : List String := ["Active", "Not started", "Terminated"]

/-- One `handleChange` invocation, tagged by the input that fired it. -/
inductive FormEvent where
  | setFirstName (v : String)
  | setLastName (v : String)
  | setDepartment (v : String)
  | setPosition (v : String)
  | setLocation (v : String)
  | setStatus (v : String)

/-- The `handleChange` handler: functional update of the named field. -/
def applyEvent (f : AddForm) : FormEvent → AddForm
  | .setFirstName v => { f with first_name := v }
  | .setLastName v => { f with last_name := v }
  | .setDepartment v => { f with department := v }
  | .setPosition v => { f with position := v }
  | .setLocation v => { f with location := v }
  | .setStatus v => { f with status := v }

/-- The form as submitted after a sequence of edit events starting from
the initial form. -/
def runForm (events : List FormEvent) : AddForm :=
  events.foldl applyEvent initialForm

/-- An event the rendered modal can actually fire: text inputs produce
arbitrary strings, but the STATUS select only fires with one of its
option values. -/
def eventFromUI : FormEvent → Prop
  | .setStatus v => v ∈ statusOptions
  | _ => True

/-! ## Field Projector — spec model

The backend (`backend/service/employee_service.py` per the README) is not
part of the source snapshot; the projector is modelled from the spec. -/

/-- A stored employee record: identity fields plus independent optional
attributes (spec §3). -/
structure EmployeeRecord where
  id : String
  organization_id : String
  first_name : String
  last_name : String
  status : String
  department : Option String
  position : Option String
  location : Option String
  company : Option String

/-- The four optional-attribute names of the record schema. -/
def optionalAttrNames : List String :=
  ["department", "position", "location", "company"]

/-- Read an optional attribute of a record by name. -/
def optionalAttr (r : EmployeeRecord) : String → Option String
  | "department" => r.department
  | "position" => r.position
  | "location" => r.location
  | "company" => r.company
  | _ => none

/-- The identity fields every projection includes (spec §4.2). -/
def identityFieldNames : List String :=
  ["id", "first_name", "last_name", "status"]

/-- Modelled from the spec: the Organization Column Configuration (spec
§3) — a mapping from organization identifier to the ordered list of
optional-attribute names it may expose; a missing entry means the empty
allowed set.  The backend `config.py` holding it is not in the source
snapshot. -/
def allowedColumns (config : List (String × List String))
    (orgId : String) : List String :=
  (config.lookup orgId).getD []

/-- Modelled from the spec: the Field Projector contract
`project(organization_id, record) -> (visible_fields_map,
visible_field_names)` (spec §4.2) — always the identity fields, then
exactly the configured optional attributes, reading the current record
value (empty marker when absent).  The backend
`service/employee_service.py` implementing it is not in the source
snapshot. -/
def project (config : List (String × List String)) (orgId : String)
    (r : EmployeeRecord) : List (String × String) × List String :=
  let allowed := allowedColumns config orgId
  ([("id", r.id), ("first_name", r.first_name),
    ("last_name", r.last_name), ("status", r.status)]
    ++ allowed.map (fun n => (n, (optionalAttr r n).getD "")),
   allowed)

/-! ## Admission Controller — spec model

The backend rate limiter (`backend/middleware/rate_limit.py` per the
README) is not part of the source snapshot; it is modelled from the
fixed-window algorithm of spec §4.3. -/

/-- Per-key Rate Limit Window State: window-start timestamp and request
counter (spec §3). -/
structure WindowState where
  window_start : Nat
  counter : Nat

/-- Modelled from the spec: one call of the Admission Controller for a
fixed key (spec §4.3) — if no state exists or
`now - window_start >= window_duration`, reset `window_start := now` and
`counter := 0`; increment `counter`; allow iff
`counter <= max_requests_per_window`.  The backend
`middleware/rate_limit.py` implementing it is not in the source
snapshot. -/
def admitStep (maxReq windowDur : Nat) (st : Option WindowState)
    (now : Nat) : Bool × WindowState :=
  let base : WindowState :=
    match st with
    | none => { window_start := now, counter := 0 }
    | some s =>
        if windowDur ≤ now - s.window_start then
          { window_start := now, counter := 0 }
        else s
  let s2 : WindowState := { base with counter := base.counter + 1 }
  (decide (s2.counter ≤ maxReq), s2)

/-- Run a sequence of calls for one fixed key at the given timestamps,
threading the window state. -/
def runCalls (maxReq windowDur : Nat) (st : Option WindowState) :
    List Nat → Option WindowState
  | [] => st
  | t :: ts =>
      runCalls maxReq windowDur (some (admitStep maxReq windowDur st t).2) ts

/-! ## Helper lemmas about association-list lookup and the query fold -/

theorem lookup_cons_ne (l : List (String × String)) (k v k' : String)
    (hne : k' ≠ k) : ((k, v) :: l).lookup k' = l.lookup k' := by
  simp [List.lookup, beq_eq_false_iff_ne.mpr hne]

theorem lookup_append_single_ne (l : List (String × String))
    (k v k' : String) (hne : k' ≠ k) :
    (l ++ [(k, v)]).lookup k' = l.lookup k' := by
  induction l with
  | nil => simp [List.lookup, beq_eq_false_iff_ne.mpr hne]
  | cons kv rest ih =>
      by_cases hk : k' = kv.1
      · simp [List.lookup, hk, ih]
      · simp [List.lookup, beq_eq_false_iff_ne.mpr hk, ih]

theorem lookup_append_single_eq (l : List (String × String)) (k v : String)
    (h : ∀ v', (k, v') ∉ l) : (l ++ [(k, v)]).lookup k = some v := by
  induction l with
  | nil => simp [List.lookup]
  | cons kv rest ih =>
      have hk : k ≠ kv.1 := by
        intro he
        have hkv : (k, kv.2) = kv := by rw [he]
        exact h kv.2 (hkv ▸ List.mem_cons_self kv rest)
      simp only [List.cons_append, List.lookup, beq_eq_false_iff_ne.mpr hk]
      exact ih (fun v' hv => h v' (List.mem_cons_of_mem _ hv))

theorem lookup_eq_none_of_forall_not_mem (l : List (String × String))
    (k : String) (h : ∀ v, (k, v) ∉ l) : l.lookup k = none := by
  induction l with
  | nil => rfl
  | cons kv rest ih =>
      have hk : k ≠ kv.1 := by
        intro he
        have hkv : (k, kv.2) = kv := by rw [he]
        exact h kv.2 (hkv ▸ List.mem_cons_self kv rest)
      simp only [List.lookup, beq_eq_false_iff_ne.mpr hk]
      exact ih (fun v hv => h v (List.mem_cons_of_mem _ hv))

theorem lookup_map_replace_ne (l : List (String × String))
    (k v k' : String) (hne : k' ≠ k) :
    (l.map (fun kv => if kv.1 = k then (k, v) else kv)).lookup k'
      = l.lookup k' := by
  induction l with
  | nil => rfl
  | cons kv rest ih =>
      simp only [List.map_cons]
      by_cases hk : kv.1 = k
      · rw [if_pos hk]
        have h1 : k' ≠ kv.1 := by rw [hk]; exact hne
        rw [lookup_cons_ne _ _ _ _ hne, ih]
        by_cases h2 : kv = (kv.1, kv.2)
        · rw [h2, lookup_cons_ne _ _ _ _ h1]
        · exact absurd rfl h2
  -- the head keeps its key when it differs from `k`
      · rw [if_neg hk]
        by_cases h2 : k' = kv.1
        · have hx : kv = (kv.1, kv.2) := rfl
          rw [hx]
          simp [List.lookup, h2]
        · have hx : kv = (kv.1, kv.2) := rfl
          rw [hx, lookup_cons_ne _ _ _ _ h2, lookup_cons_ne _ _ _ _ h2, ih]

theorem lookup_urlParamsSet_ne (l : List (String × String))
    (k v k' : String) (hne : k' ≠ k) :
    (urlParamsSet l k v).lookup k' = l.lookup k' := by
  unfold urlParamsSet
  split
  · exact lookup_map_replace_ne l k v k' hne
  · exact lookup_append_single_ne l k v k' hne

theorem searchParamsFold_lookup_not_mem (k : String)
    (params : List (String × String)) :
    ∀ acc : List (String × String), (∀ v, (k, v) ∉ params) →
      (searchParamsFold acc params).lookup k = acc.lookup k := by
  induction params with
  | nil => intro acc _; rfl
  | cons kv rest ih =>
      intro acc h
      have hk : k ≠ kv.1 := by
        intro he
        have hkv : (k, kv.2) = kv := by rw [he]
        exact h kv.2 (hkv ▸ List.mem_cons_self kv rest)
      have hrest : ∀ v, (k, v) ∉ rest :=
        fun v hv => h v (List.mem_cons_of_mem _ hv)
      simp only [searchParamsFold]
      split
      · rw [ih _ hrest, lookup_urlParamsSet_ne _ _ _ _ hk]
      · exact ih _ hrest

theorem searchParamsFold_append (l1 l2 : List (String × String)) :
    ∀ acc : List (String × String),
      searchParamsFold acc (l1 ++ l2)
        = searchParamsFold (searchParamsFold acc l1) l2 := by
  induction l1 with
  | nil => intro acc; rfl
  | cons kv rest ih =>
      intro acc
      simp only [List.cons_append, searchParamsFold]
      split
      · exact ih _
      · exact ih _

theorem keys_eq_of_pair_eq {k1 v1 k2 v2 : String}
    (h : (k1, v1) = (k2, v2)) : k1 = k2 :=
  congrArg Prod.fst h

theorem forall_not_mem_of_lookup_eq_none (l : List (String × String))
    (k : String) (h : l.lookup k = none) : ∀ v, (k, v) ∉ l := by
  induction l with
  | nil => intro v hv; exact List.not_mem_nil _ hv
  | cons kv rest ih =>
      intro v hv
      by_cases hk : k = kv.1
      · rw [show kv = (kv.1, kv.2) from rfl] at h
        simp [List.lookup, hk] at h
      · rw [show kv = (kv.1, kv.2) from rfl, lookup_cons_ne _ _ _ _ hk] at h
        rcases List.mem_cons.mp hv with he | hm
        · exact hk (congrArg Prod.fst he)
        · exact ih h v hm

theorem key_of_mem_truthyParam (key : String) (x : Option String)
    (k v : String) (h : (k, v) ∈ truthyParam key x) : k = key := by
  match x with
  | none => simp [truthyParam] at h
  | some w =>
      simp only [truthyParam] at h
      split at h
      · simp at h
      · rw [List.mem_singleton] at h
        exact keys_eq_of_pair_eq h

theorem key_of_mem_cond_single {c : Prop} [Decidable c] (key w k v : String)
    (h : (k, v) ∈ (if c then [(key, w)] else [])) : k = key := by
  split at h
  · rw [List.mem_singleton] at h
    exact keys_eq_of_pair_eq h
  · simp at h

theorem key_of_mem_cond_single_neg {c : Prop} [Decidable c]
    (key w k v : String) (h : (k, v) ∈ (if c then [] else [(key, w)])) :
    k = key := by
  split at h
  · simp at h
  · rw [List.mem_singleton] at h
    exact keys_eq_of_pair_eq h

theorem mem_buildQueryParams_statuses (st : ListPageState) (v : String)
    (h : ("statuses", v) ∈ buildQueryParams st) :
    ("statuses", v) ∈ (if 0 < st.filters.statuses.length then
      [("statuses", joinComma st.filters.statuses)] else []) := by
  simp only [buildQueryParams, List.append_assoc, List.mem_append] at h
  rcases h with h | h | h | h | h | h | h | h
  · simp only [List.mem_cons, List.not_mem_nil, or_false] at h
    rcases h with h | h | h <;> exact absurd (keys_eq_of_pair_eq h) (by decide)
  · exact absurd (key_of_mem_cond_single_neg _ _ _ _ h) (by decide)
  · exact h
  · exact absurd (key_of_mem_truthyParam _ _ _ _ h) (by decide)
  · exact absurd (key_of_mem_truthyParam _ _ _ _ h) (by decide)
  · exact absurd (key_of_mem_truthyParam _ _ _ _ h) (by decide)
  · exact absurd (key_of_mem_truthyParam _ _ _ _ h) (by decide)
  · exact absurd (key_of_mem_cond_single _ _ _ _ h) (by decide)

theorem mem_buildQueryParams_locations (st : ListPageState) (v : String)
    (h : ("locations", v) ∈ buildQueryParams st) :
    ("locations", v) ∈ truthyParam "locations" st.filters.location := by
  simp only [buildQueryParams, List.append_assoc, List.mem_append] at h
  rcases h with h | h | h | h | h | h | h | h
  · simp only [List.mem_cons, List.not_mem_nil, or_false] at h
    rcases h with h | h | h <;> exact absurd (keys_eq_of_pair_eq h) (by decide)
  · exact absurd (key_of_mem_cond_single_neg _ _ _ _ h) (by decide)
  · exact absurd (key_of_mem_cond_single _ _ _ _ h) (by decide)
  · exact h
  · exact absurd (key_of_mem_truthyParam _ _ _ _ h) (by decide)
  · exact absurd (key_of_mem_truthyParam _ _ _ _ h) (by decide)
  · exact absurd (key_of_mem_truthyParam _ _ _ _ h) (by decide)
  · exact absurd (key_of_mem_cond_single _ _ _ _ h) (by decide)

theorem mem_buildQueryParams_companies (st : ListPageState) (v : String)
    (h : ("companies", v) ∈ buildQueryParams st) :
    ("companies", v) ∈ truthyParam "companies" st.filters.company := by
  simp only [buildQueryParams, List.append_assoc, List.mem_append] at h
  rcases h with h | h | h | h | h | h | h | h
  · simp only [List.mem_cons, List.not_mem_nil, or_false] at h
    rcases h with h | h | h <;> exact absurd (keys_eq_of_pair_eq h) (by decide)
  · exact absurd (key_of_mem_cond_single_neg _ _ _ _ h) (by decide)
  · exact absurd (key_of_mem_cond_single _ _ _ _ h) (by decide)
  · exact absurd (key_of_mem_truthyParam _ _ _ _ h) (by decide)
  · exact h
  · exact absurd (key_of_mem_truthyParam _ _ _ _ h) (by decide)
  · exact absurd (key_of_mem_truthyParam _ _ _ _ h) (by decide)
  · exact absurd (key_of_mem_cond_single _ _ _ _ h) (by decide)

theorem mem_buildQueryParams_departments (st : ListPageState) (v : String)
    (h : ("departments", v) ∈ buildQueryParams st) :
    ("departments", v) ∈ truthyParam "departments" st.filters.department := by
  simp only [buildQueryParams, List.append_assoc, List.mem_append] at h
  rcases h with h | h | h | h | h | h | h | h
  · simp only [List.mem_cons, List.not_mem_nil, or_false] at h
    rcases h with h | h | h <;> exact absurd (keys_eq_of_pair_eq h) (by decide)
  · exact absurd (key_of_mem_cond_single_neg _ _ _ _ h) (by decide)
  · exact absurd (key_of_mem_cond_single _ _ _ _ h) (by decide)
  · exact absurd (key_of_mem_truthyParam _ _ _ _ h) (by decide)
  · exact absurd (key_of_mem_truthyParam _ _ _ _ h) (by decide)
  · exact h
  · exact absurd (key_of_mem_truthyParam _ _ _ _ h) (by decide)
  · exact absurd (key_of_mem_cond_single _ _ _ _ h) (by decide)

theorem mem_buildQueryParams_positions (st : ListPageState) (v : String)
    (h : ("positions", v) ∈ buildQueryParams st) :
    ("positions", v) ∈ truthyParam "positions" st.filters.position := by
  simp only [buildQueryParams, List.append_assoc, List.mem_append] at h
  rcases h with h | h | h | h | h | h | h | h
  · simp only [List.mem_cons, List.not_mem_nil, or_false] at h
    rcases h with h | h | h <;> exact absurd (keys_eq_of_pair_eq h) (by decide)
  · exact absurd (key_of_mem_cond_single_neg _ _ _ _ h) (by decide)
  · exact absurd (key_of_mem_cond_single _ _ _ _ h) (by decide)
  · exact absurd (key_of_mem_truthyParam _ _ _ _ h) (by decide)
  · exact absurd (key_of_mem_truthyParam _ _ _ _ h) (by decide)
  · exact absurd (key_of_mem_truthyParam _ _ _ _ h) (by decide)
  · exact h
  · exact absurd (key_of_mem_cond_single _ _ _ _ h) (by decide)

/-- The `queryParams` entries set before the `include_terminated` one. -/
def buildQueryParamsPre (st : ListPageState) : List (String × String) :=
  [("page", toString st.page), ("page_size", toString st.pageSize),
   ("_rt", toString st.reloadToken)]
  ++ (if st.search = "" then [] else [("search", st.search)])
  ++ (if 0 < st.filters.statuses.length then
        [("statuses", joinComma st.filters.statuses)] else [])
  ++ truthyParam "locations" st.filters.location
  ++ truthyParam "companies" st.filters.company
  ++ truthyParam "departments" st.filters.department
  ++ truthyParam "positions" st.filters.position

theorem buildQueryParams_split (st : ListPageState) :
    buildQueryParams st = buildQueryParamsPre st
      ++ (if st.includeTerminated then [("include_terminated", "true")]
          else []) := by
  simp [buildQueryParams, buildQueryParamsPre, List.append_assoc]

theorem not_mem_pre_includeTerminated (st : ListPageState) :
    ∀ v, ("include_terminated", v) ∉ buildQueryParamsPre st := by
  intro v h
  simp only [buildQueryParamsPre, List.append_assoc, List.mem_append] at h
  rcases h with h | h | h | h | h | h | h
  · simp only [List.mem_cons, List.not_mem_nil, or_false] at h
    rcases h with h | h | h <;> exact absurd (keys_eq_of_pair_eq h) (by decide)
  · exact absurd (key_of_mem_cond_single_neg _ _ _ _ h) (by decide)
  · exact absurd (key_of_mem_cond_single _ _ _ _ h) (by decide)
  · exact absurd (key_of_mem_truthyParam _ _ _ _ h) (by decide)
  · exact absurd (key_of_mem_truthyParam _ _ _ _ h) (by decide)
  · exact absurd (key_of_mem_truthyParam _ _ _ _ h) (by decide)
  · exact absurd (key_of_mem_truthyParam _ _ _ _ h) (by decide)

theorem mem_dedupFirstAux (x : String) (l : List String) :
    ∀ seen : List String, x ∈ dedupFirstAux seen l ↔ x ∈ l ∧ x ∉ seen := by
  induction l with
  | nil => intro seen; simp [dedupFirstAux]
  | cons y ys ih =>
      intro seen
      simp only [dedupFirstAux]
      split
      · rename_i hy
        rw [ih seen]
        constructor
        · rintro ⟨hm, hns⟩
          exact ⟨List.mem_cons_of_mem _ hm, hns⟩
        · rintro ⟨hm, hns⟩
          rcases List.mem_cons.mp hm with he | hm2
          · exact absurd (he ▸ hy) hns
          · exact ⟨hm2, hns⟩
      · rename_i hy
        constructor
        · intro hm
          rcases List.mem_cons.mp hm with he | hm2
          · exact ⟨he ▸ List.mem_cons_self y ys, he ▸ hy⟩
          · rw [ih (y :: seen)] at hm2
            refine ⟨List.mem_cons_of_mem _ hm2.1, ?_⟩
            intro hx
            exact hm2.2 (List.mem_cons_of_mem _ hx)
        · rintro ⟨hm, hns⟩
          by_cases hxy : x = y
          · exact hxy ▸ List.mem_cons_self y _
          · rcases List.mem_cons.mp hm with he | hm2
            · exact absurd he hxy
            · refine List.mem_cons_of_mem _ ?_
              rw [ih (y :: seen)]
              refine ⟨hm2, ?_⟩
              intro hx
              rcases List.mem_cons.mp hx with he | hm3
              · exact hxy he
              · exact hns hm3

theorem nodup_dedupFirstAux (l : List String) :
    ∀ seen : List String, (dedupFirstAux seen l).Nodup := by
  induction l with
  | nil => intro seen; exact List.nodup_nil
  | cons y ys ih =>
      intro seen
      simp only [dedupFirstAux]
      split
      · exact ih seen
      · refine List.nodup_cons.mpr ⟨?_, ih (y :: seen)⟩
        intro hy
        rw [mem_dedupFirstAux] at hy
        exact hy.2 (List.mem_cons_self _ _)

theorem mem_dedupFirst (x : String) (l : List String) :
    x ∈ dedupFirst l ↔ x ∈ l := by
  unfold dedupFirst
  rw [mem_dedupFirstAux]
  simp

theorem nodup_dedupFirst (l : List String) : (dedupFirst l).Nodup :=
  nodup_dedupFirstAux l []

theorem admitStep_none_eq (maxReq windowDur now : Nat) :
    admitStep maxReq windowDur none now
      = (decide (1 ≤ maxReq), ⟨now, 1⟩) :=
  rfl

theorem admitStep_no_reset (maxReq windowDur t0 c now : Nat)
    (h : now - t0 < windowDur) :
    admitStep maxReq windowDur (some ⟨t0, c⟩) now
      = (decide (c + 1 ≤ maxReq), ⟨t0, c + 1⟩) := by
  simp only [admitStep]
  simp only [if_neg (show ¬ windowDur ≤ now - t0 from by omega)]

theorem admitStep_reset (maxReq windowDur t0 c now : Nat)
    (h : windowDur ≤ now - t0) :
    admitStep maxReq windowDur (some ⟨t0, c⟩) now
      = (decide (1 ≤ maxReq), ⟨now, 1⟩) := by
  simp only [admitStep]
  simp only [if_pos h]

theorem runCalls_within_window (maxReq windowDur t0 : Nat)
    (ts : List Nat) (h : ∀ t ∈ ts, t - t0 < windowDur) :
    ∀ c : Nat, runCalls maxReq windowDur (some ⟨t0, c⟩) ts
      = some ⟨t0, c + ts.length⟩ := by
  induction ts with
  | nil => intro c; simp [runCalls]
  | cons t ts ih =>
      intro c
      have ht : t - t0 < windowDur := h t (List.mem_cons_self _ _)
      simp only [runCalls, admitStep_no_reset maxReq windowDur t0 c t ht]
      rw [ih (fun s hs => h s (List.mem_cons_of_mem _ hs)) (c + 1)]
      simp only [List.length_cons]
      have hc : c + 1 + ts.length = c + (ts.length + 1) := by omega
      rw [hc]

theorem totalPagesJs_pos (total pageSize : Nat) :
    1 ≤ totalPagesJs total pageSize :=
  le_max_left 1 _

theorem total_le_mul_totalPagesJs (total p : Nat) (hp : 0 < p) :
    total ≤ p * totalPagesJs total p := by
  unfold totalPagesJs
  have h1 := Nat.div_add_mod (total + p - 1) p
  have h2 := Nat.mod_lt (total + p - 1) hp
  have h3 : total ≤ p * ((total + p - 1) / p) := by omega
  calc total ≤ p * ((total + p - 1) / p) := h3
    _ ≤ p * max 1 ((total + p - 1) / p) :=
        Nat.mul_le_mul_left _ (le_max_right _ _)

theorem mul_totalPagesJs_pred_lt (total p : Nat) (hp : 0 < p)
    (ht : 0 < total) : p * (totalPagesJs total p - 1) < total := by
  unfold totalPagesJs
  have hq : 0 < (total + p - 1) / p := Nat.div_pos (by omega) hp
  rw [Nat.max_eq_right hq]
  have h1 := Nat.div_add_mod (total + p - 1) p
  have h2 := Nat.mod_lt (total + p - 1) hp
  have h4 : p * ((total + p - 1) / p - 1)
      = p * ((total + p - 1) / p) - p := by
    rw [Nat.mul_sub_one]
  omega

/-! ## Claim theorems -/

/-- C1: for every organization configuration, organization and record,
`project` never includes an optional field that is not listed in that
column configuration of the organization, even if the record has that field
populated — and the contract takes no caller-requested column list, so
this holds for every caller. -/
theorem claim_C1_project_never_leaks (config : List (String × List String))
    (orgId : String) (r : EmployeeRecord) (f v : String)
    (hid : f ∉ identityFieldNames)
    (hcfg : f ∉ allowedColumns config orgId) :
    (f, v) ∉ (project config orgId r).1 := by
  intro hv
  simp only [project, List.mem_append] at hv
  rcases hv with h | h
  · simp only [List.mem_cons, List.not_mem_nil, or_false] at h
    rcases h with h | h | h | h <;>
      exact hid (by rw [keys_eq_of_pair_eq h]; decide)
  · rcases List.mem_map.mp h with ⟨n, hn, he⟩
    exact hcfg (keys_eq_of_pair_eq he ▸ hn)

/-- Witness for C1: org-1 configured with department, position and
location; a record with company set to Acme is never projected with a
company field. -/
theorem claim_C1_witness :
    ("company", "Acme") ∉ (project
      [("org-1", ["department", "position", "location"])] "org-1"
      { id := "e1", organization_id := "org-1", first_name := "Ada",
        last_name := "Lovelace", status := "Active",
        department := some "Engineering", position := none,
        location := none, company := some "Acme" }).1 :=
  claim_C1_project_never_leaks _ _ _ _ _ (by decide) (by decide)

/-- C2: with `max_requests_per_window = N` and a fixed key, after the
first call opens a window at `t0` and `N - 1` further calls land inside
it, the next (that is, the `(N+1)`-th) call inside the window is denied;
and a call made once the window duration has elapsed since the stored
window start is allowed again. -/
theorem claim_C2_fixed_window (N dur t0 tNext w c tF : Nat)
    (ts : List Nat) (hN : 1 ≤ N) (hlen : ts.length = N - 1)
    (hin : ∀ t ∈ ts, t - t0 < dur) (hnext : tNext - t0 < dur)
    (hfresh : dur ≤ tF - w) :
    (admitStep N dur
        (runCalls N dur (some (admitStep N dur none t0).2) ts) tNext).1
      = false
    ∧ (admitStep N dur (some ⟨w, c⟩) tF).1 = true := by
  constructor
  · have h1 : (admitStep N dur none t0).2 = ⟨t0, 1⟩ := rfl
    rw [h1, runCalls_within_window N dur t0 ts hin 1,
      admitStep_no_reset N dur t0 (1 + ts.length) tNext hnext]
    exact decide_eq_false (by omega)
  · rw [admitStep_reset N dur w c tF hfresh]
    exact decide_eq_true (by omega)

/-- Witness for C2: limit 5 per 60-tick window; the window opens at 0,
four more calls land at 0, the sixth call at 10 is denied, and a call at
61 against the stored window start 0 is allowed. -/
theorem claim_C2_witness :
    (admitStep 5 60
        (runCalls 5 60 (some (admitStep 5 60 none 0).2) [0, 0, 0, 0]) 10).1
      = false
    ∧ (admitStep 5 60 (some ⟨0, 6⟩) 61).1 = true :=
  claim_C2_fixed_window 5 60 0 10 0 6 61 [0, 0, 0, 0]
    (by decide) (by decide) (by decide) (by decide) (by decide)

/-- C3: every request the employee service issues — search, filter
options, create, CSV import, CSV export — carries the `X-Org-Id` header
exactly once, with the organization identifier as its value. -/
theorem claim_C3_org_header_always_present (queryString : String) :
    ((searchEmployeesRequest queryString).headers.countP
        (fun kv => kv.1 == "X-Org-Id") = 1
      ∧ (searchEmployeesRequest queryString).headers.lookup "X-Org-Id"
        = some ORG_ID)
    ∧ (getFilterOptionsRequest.headers.countP
        (fun kv => kv.1 == "X-Org-Id") = 1
      ∧ getFilterOptionsRequest.headers.lookup "X-Org-Id" = some ORG_ID)
    ∧ (createEmployeeRequest.headers.countP
        (fun kv => kv.1 == "X-Org-Id") = 1
      ∧ createEmployeeRequest.headers.lookup "X-Org-Id" = some ORG_ID)
    ∧ (importEmployeesRequest.headers.countP
        (fun kv => kv.1 == "X-Org-Id") = 1
      ∧ importEmployeesRequest.headers.lookup "X-Org-Id" = some ORG_ID)
    ∧ (exportEmployeesRequest.headers.countP
        (fun kv => kv.1 == "X-Org-Id") = 1
      ∧ exportEmployeesRequest.headers.lookup "X-Org-Id" = some ORG_ID) := by
  exact ⟨⟨rfl, rfl⟩, ⟨rfl, rfl⟩, ⟨rfl, rfl⟩, ⟨rfl, rfl⟩, ⟨rfl, rfl⟩⟩

/-- C10: any status string outside the enumeration is rendered with the
fallback color `#24b47e`, which is exactly the Active color. -/
theorem claim_C10_unknown_status_renders_active_color (s : String)
    (h : s ∉ statusOptions) :
    statusPillColor s = "#24b47e"
    ∧ statusPillColor s = statusPillColor "Active" := by
  have hl : STATUS_COLORS.lookup s = none := by
    apply lookup_eq_none_of_forall_not_mem
    intro v hv
    simp only [STATUS_COLORS, List.mem_cons, List.not_mem_nil,
      or_false] at hv
    rcases hv with hv | hv | hv <;>
      exact h (by rw [keys_eq_of_pair_eq hv]; decide)
  constructor
  · unfold statusPillColor
    rw [hl]
    rfl
  · unfold statusPillColor
    rw [hl]
    rfl

/-- Witness for C10: the status string `Retired` is outside the
enumeration and is rendered with the Active color. -/
theorem claim_C10_witness :
    statusPillColor "Retired" = "#24b47e"
    ∧ statusPillColor "Retired" = statusPillColor "Active" :=
  claim_C10_unknown_status_renders_active_color "Retired" (by decide)

/-- C4: for every filter dimension, when the user has selected no value
for it (empty status set; null dropdown selection), the serialized
employee query contains no parameter for that dimension at all. -/
theorem claim_C4_unset_dimensions_absent (st : ListPageState) :
    (st.filters.statuses = [] →
      (employeesQueryParams st).lookup "statuses" = none)
    ∧ (st.filters.location = none →
      (employeesQueryParams st).lookup "locations" = none)
    ∧ (st.filters.company = none →
      (employeesQueryParams st).lookup "companies" = none)
    ∧ (st.filters.department = none →
      (employeesQueryParams st).lookup "departments" = none)
    ∧ (st.filters.position = none →
      (employeesQueryParams st).lookup "positions" = none) := by
  refine ⟨?_, ?_, ?_, ?_, ?_⟩
  · intro hs
    unfold employeesQueryParams searchParamsOf
    rw [searchParamsFold_lookup_not_mem]
    · rfl
    · intro v hv
      have hm := mem_buildQueryParams_statuses st v hv
      rw [hs] at hm
      simp at hm
  · intro hs
    unfold employeesQueryParams searchParamsOf
    rw [searchParamsFold_lookup_not_mem]
    · rfl
    · intro v hv
      have hm := mem_buildQueryParams_locations st v hv
      rw [hs] at hm
      simp [truthyParam] at hm
  · intro hs
    unfold employeesQueryParams searchParamsOf
    rw [searchParamsFold_lookup_not_mem]
    · rfl
    · intro v hv
      have hm := mem_buildQueryParams_companies st v hv
      rw [hs] at hm
      simp [truthyParam] at hm
  · intro hs
    unfold employeesQueryParams searchParamsOf
    rw [searchParamsFold_lookup_not_mem]
    · rfl
    · intro v hv
      have hm := mem_buildQueryParams_departments st v hv
      rw [hs] at hm
      simp [truthyParam] at hm
  · intro hs
    unfold employeesQueryParams searchParamsOf
    rw [searchParamsFold_lookup_not_mem]
    · rfl
    · intro v hv
      have hm := mem_buildQueryParams_positions st v hv
      rw [hs] at hm
      simp [truthyParam] at hm

/-- A page state with every filter dimension unselected. -/
def unsetFiltersState : ListPageState :=
  { page := 1
    pageSize := 50
    search := ""
    includeTerminated := false
    filters := { statuses := [], location := none, company := none,
                 department := none, position := none }
    reloadToken := 0 }

/-- Witness for C4: with every dimension unselected, none of the five
filter parameters appears in the query. -/
theorem claim_C4_witness :
    (employeesQueryParams unsetFiltersState).lookup "statuses" = none
    ∧ (employeesQueryParams unsetFiltersState).lookup "locations" = none
    ∧ (employeesQueryParams unsetFiltersState).lookup "companies" = none
    ∧ (employeesQueryParams unsetFiltersState).lookup "departments" = none
    ∧ (employeesQueryParams unsetFiltersState).lookup "positions" = none := by
  have h := claim_C4_unset_dimensions_absent unsetFiltersState
  exact ⟨h.1 rfl, h.2.1 rfl, h.2.2.1 rfl, h.2.2.2.1 rfl, h.2.2.2.2 rfl⟩

/-- C5: the initial employee query uses page 1 and page size 50, and
every `(page, pageSize)` state reachable through the pagination controls
(Prev enabled only above page 1, numbered buttons drawn from `pagesList`,
Next guarded by the page count, size selector limited to
`pageSizeOptions`) keeps `page ≥ 1` and `pageSize > 0`. -/
theorem claim_C5_page_params_valid (st : Nat × Nat)
    (h : PageReachable st) :
    initialListPageState.page = 1 ∧ initialListPageState.pageSize = 50
    ∧ 1 ≤ st.1 ∧ 0 < st.2 := by
  refine ⟨rfl, rfl, ?_⟩
  induction h with
  | init => exact ⟨le_refl 1, by decide⟩
  | step total s s2 hr hstep ih =>
      cases hstep with
      | selectSize size hmem =>
          refine ⟨le_refl 1, ?_⟩
          simp only [pageSizeOptions, List.mem_cons, List.not_mem_nil,
            or_false] at hmem
          rcases hmem with h1 | h1 | h1 <;> omega
      | clickPrev hprev =>
          have hp2 : ¬ s.1 ≤ 1 := by simpa [prevDisabled] using hprev
          exact ⟨by omega, ih.2⟩
      | clickPage p hp =>
          simp only [pagesList] at hp
          exact ⟨(List.mem_range'_1.mp hp).1, ih.2⟩
      | clickNext hnext =>
          exact ⟨by omega, ih.2⟩

/-- Witness for C5: the state reached by selecting page size 10 from the
initial render satisfies the constraints. -/
theorem claim_C5_witness :
    initialListPageState.page = 1 ∧ initialListPageState.pageSize = 50
    ∧ 1 ≤ ((1 : Nat), (10 : Nat)).1 ∧ 0 < ((1 : Nat), (10 : Nat)).2 :=
  claim_C5_page_params_valid (1, 10)
    (PageReachable.step 0 (1, 50) (1, 10) PageReachable.init
      (PageStep.selectSize (1, 50) 10 (by decide)))

theorem searchParamsFold_singleton (acc : List (String × String))
    (k v : String) (hv : v ≠ "") :
    searchParamsFold acc [(k, v)] = urlParamsSet acc k v := by
  simp only [searchParamsFold]
  rw [if_pos hv]

theorem urlParamsSet_of_lookup_none (acc : List (String × String))
    (k v : String) (h : acc.lookup k = none) :
    urlParamsSet acc k v = acc ++ [(k, v)] := by
  unfold urlParamsSet
  rw [h]
  rfl

/-- C6: the include-terminated flag starts out false, and the serialized
query carries `include_terminated=true` exactly when the box is
checked. -/
theorem claim_C6_include_terminated_iff (st : ListPageState) :
    initialListPageState.includeTerminated = false
    ∧ ((employeesQueryParams st).lookup "include_terminated" = some "true"
        ↔ st.includeTerminated = true) := by
  refine ⟨rfl, ?_⟩
  cases hIT : st.includeTerminated with
  | false =>
      have hnone : (employeesQueryParams st).lookup "include_terminated"
          = none := by
        unfold employeesQueryParams searchParamsOf
        rw [searchParamsFold_lookup_not_mem]
        · rfl
        · intro v hv
          rw [buildQueryParams_split st, List.mem_append] at hv
          rcases hv with h | h
          · exact not_mem_pre_includeTerminated st v h
          · rw [hIT] at h
            simp at h
      rw [hnone]
      simp
  | true =>
      have hpre : (searchParamsFold [] (buildQueryParamsPre st)).lookup
          "include_terminated" = none := by
        rw [searchParamsFold_lookup_not_mem _ _ _
          (not_mem_pre_includeTerminated st)]
        rfl
      have hsome : (employeesQueryParams st).lookup "include_terminated"
          = some "true" := by
        unfold employeesQueryParams searchParamsOf
        rw [buildQueryParams_split st, hIT]
        simp only [if_true]
        rw [searchParamsFold_append,
          searchParamsFold_singleton _ _ _ (by decide),
          urlParamsSet_of_lookup_none _ _ _ hpre,
          lookup_append_single_eq _ _ _
            (forall_not_mem_of_lookup_eq_none _ _ hpre)]
      rw [hsome]
      simp

theorem foldl_applyEvent_status_mem (events : List FormEvent) :
    ∀ f : AddForm, f.status ∈ statusOptions →
      (∀ e ∈ events, eventFromUI e) →
      (events.foldl applyEvent f).status ∈ statusOptions := by
  induction events with
  | nil => intro f hf _; exact hf
  | cons e es ih =>
      intro f hf hui
      simp only [List.foldl_cons]
      refine ih _ ?_ (fun e2 he2 => hui e2 (List.mem_cons_of_mem _ he2))
      cases e with
      | setStatus v => exact hui _ (List.mem_cons_self _ _)
      | setFirstName v => exact hf
      | setLastName v => exact hf
      | setDepartment v => exact hf
      | setPosition v => exact hf
      | setLocation v => exact hf

theorem foldl_applyEvent_status_active (events : List FormEvent) :
    ∀ f : AddForm, f.status = "Active" →
      (∀ v, FormEvent.setStatus v ∈ events → v = "Active") →
      (events.foldl applyEvent f).status = "Active" := by
  induction events with
  | nil => intro f hf _; exact hf
  | cons e es ih =>
      intro f hf hset
      simp only [List.foldl_cons]
      refine ih _ ?_ (fun v hv => hset v (List.mem_cons_of_mem _ hv))
      cases e with
      | setStatus v => exact hset v (List.mem_cons_self _ _)
      | setFirstName v => exact hf
      | setLastName v => exact hf
      | setDepartment v => exact hf
      | setPosition v => exact hf
      | setLocation v => exact hf

/-- C7: however the add-employee form is edited through its rendered
inputs, the submitted status is one of the enumerated options, and it is
Active unless a different value was explicitly selected. -/
theorem claim_C7_submitted_status (events : List FormEvent)
    (hui : ∀ e ∈ events, eventFromUI e) :
    (runForm events).status ∈ statusOptions
    ∧ ((∀ v, FormEvent.setStatus v ∈ events → v = "Active") →
        (runForm events).status = "Active") :=
  ⟨foldl_applyEvent_status_mem events initialForm (by decide) hui,
   fun hset =>
     foldl_applyEvent_status_active events initialForm rfl hset⟩

/-- Witness for C7: after explicitly selecting Terminated, the submitted
status is still one of the enumerated options. -/
theorem claim_C7_witness :
    (runForm [FormEvent.setStatus "Terminated"]).status ∈ statusOptions
    ∧ ((∀ v, FormEvent.setStatus v ∈ [FormEvent.setStatus "Terminated"]
          → v = "Active") →
        (runForm [FormEvent.setStatus "Terminated"]).status = "Active") :=
  claim_C7_submitted_status [FormEvent.setStatus "Terminated"]
    (by
      intro e he
      rw [List.mem_singleton] at he
      subst he
      show "Terminated" ∈ statusOptions
      decide)

/-- C8: with a positive page size, the pagination component renders
exactly `max 1 ⌈total / pageSize⌉` page buttons (the rounding-up division
characterized by the two inequalities below), at least one even for an
empty result, and disables Prev exactly below page 2 and Next exactly at
or beyond the page count. -/
theorem claim_C8_pagination_controls (total pageSize page : Nat)
    (hp : 0 < pageSize) :
    (pagesList total pageSize).length = totalPagesJs total pageSize
    ∧ 1 ≤ (pagesList total pageSize).length
    ∧ total ≤ pageSize * (pagesList total pageSize).length
    ∧ (0 < total →
        pageSize * ((pagesList total pageSize).length - 1) < total)
    ∧ (prevDisabled page = true ↔ page ≤ 1)
    ∧ (nextDisabled page total pageSize = true
        ↔ totalPagesJs total pageSize ≤ page) := by
  have hlen : (pagesList total pageSize).length
      = totalPagesJs total pageSize := by
    simp [pagesList]
  refine ⟨hlen, ?_, ?_, ?_, ?_, ?_⟩
  · rw [hlen]
    exact totalPagesJs_pos total pageSize
  · rw [hlen]
    exact total_le_mul_totalPagesJs total pageSize hp
  · intro ht
    rw [hlen]
    exact mul_totalPagesJs_pred_lt total pageSize hp ht
  · simp [prevDisabled]
  · simp [nextDisabled]

/-- Witness for C8: 120 records at page size 50 on page 3. -/
theorem claim_C8_witness :
    (pagesList 120 50).length = totalPagesJs 120 50
    ∧ 1 ≤ (pagesList 120 50).length
    ∧ 120 ≤ 50 * (pagesList 120 50).length
    ∧ (0 < 120 → 50 * ((pagesList 120 50).length - 1) < 120)
    ∧ (prevDisabled 3 = true ↔ 3 ≤ 1)
    ∧ (nextDisabled 3 120 50 = true ↔ totalPagesJs 120 50 ≤ 3) :=
  claim_C8_pagination_controls 120 50 3 (by decide)

theorem mem_handleStatusToggle (l : List String) (s x : String) :
    x ∈ handleStatusToggle l s
      ↔ (x = s ∧ s ∉ l) ∨ (x ≠ s ∧ x ∈ l) := by
  unfold handleStatusToggle
  by_cases hs : s ∈ dedupFirst l
  · rw [if_pos hs, (nodup_dedupFirst l).mem_erase_iff, mem_dedupFirst]
    have hs2 : s ∈ l := (mem_dedupFirst s l).mp hs
    constructor
    · rintro ⟨hne, hm⟩
      exact Or.inr ⟨hne, hm⟩
    · rintro (⟨he, hns⟩ | ⟨hne, hm⟩)
      · exact absurd hs2 hns
      · exact ⟨hne, hm⟩
  · rw [if_neg hs, List.mem_append, mem_dedupFirst, List.mem_singleton]
    have hs2 : s ∉ l := fun hm => hs ((mem_dedupFirst s l).mpr hm)
    constructor
    · rintro (hm | he)
      · by_cases hx : x = s
        · exact Or.inl ⟨hx, hs2⟩
        · exact Or.inr ⟨hx, hm⟩
      · exact Or.inl ⟨he, hs2⟩
    · rintro (⟨he, _⟩ | ⟨hne, hm⟩)
      · exact Or.inr he
      · exact Or.inl hm

/-- C9: toggling a status in the filter panel flips exactly the membership
of that status in the selected set, leaves the membership of every other
status unchanged, and toggling twice restores the set-level membership. -/
theorem claim_C9_toggle_involution (l : List String) (s t : String) :
    (s ∈ handleStatusToggle l s ↔ s ∉ l)
    ∧ (t ≠ s → (t ∈ handleStatusToggle l s ↔ t ∈ l))
    ∧ (t ∈ handleStatusToggle (handleStatusToggle l s) s ↔ t ∈ l) := by
  refine ⟨?_, ?_, ?_⟩
  · rw [mem_handleStatusToggle]
    simp
  · intro hts
    rw [mem_handleStatusToggle]
    simp [hts]
  · simp only [mem_handleStatusToggle]
    by_cases hts : t = s
    · subst hts
      tauto
    · simp [hts]

/-- Witness for C9: toggling Terminated on the default selection adds it,
leaves Active untouched, and toggling it twice restores membership. -/
theorem claim_C9_witness :
    ("Terminated" ∈ handleStatusToggle ["Active", "Not started"]
        "Terminated" ↔ "Terminated" ∉ ["Active", "Not started"])
    ∧ ("Active" ∈ handleStatusToggle ["Active", "Not started"]
        "Terminated" ↔ "Active" ∈ ["Active", "Not started"])
    ∧ ("Active" ∈ handleStatusToggle
        (handleStatusToggle ["Active", "Not started"] "Terminated")
        "Terminated" ↔ "Active" ∈ ["Active", "Not started"]) := by
  have h := claim_C9_toggle_involution ["Active", "Not started"]
    "Terminated" "Active"
  exact ⟨h.1, h.2.1 (by decide), h.2.2⟩
